import Mathlib

/-!
Verification of the wvasp output-parsing and derived-analysis engine
(`src/wvasp/core/analysis/`): a shallow embedding of the energy-log
extractor (`energy_analysis.py`), the DOS-log extractor
(`dos_analysis.py`), and the composite analyzers
(`neb_analysis.py`, `md_analysis.py`, `band_analysis.py`),
together with theorems settling the specified behaviours.

Numeric values are modelled as rationals.  A source line of the
free-form energy log is abstracted into the outcome of each of the
fixed regular-expression / substring tests the Python code applies to
it (structure `OutcarLine`); a line of the fixed-layout DOS log is
abstracted into its whitespace-split token list, each token carrying
its numeric value when it parses as a number (`DoscarLine`).
Python exceptions are modelled by `Except PyErr`.
-/

/-- Python exceptions that the embedded code can raise.
`fileFormat` models the repository's `FileFormatError`, with its
message abstracted into which of the three raise sites produced it. -/
inductive FFMsg where
  /-- "OUTCAR file not found: ..." (energy_analysis.py line 37) -/
  | outcarNotFound
  /-- "DOSCAR file not found: ..." (dos_analysis.py line 37) -/
  | doscarNotFound
  /-- "DOSCAR file too short" (dos_analysis.py line 57) -/
  | doscarTooShort
deriving DecidableEq, Repr

/-- Built-in Python exception kinds reachable in the embedded code. -/
inductive PyErr where
  | fileFormat (m : FFMsg)
  | attributeError
  | typeError
  | indexError
  | valueError
deriving DecidableEq, Repr

/-! ## Energy/convergence log (OUTCAR) lines

`EnergyAnalyzer._parse_outcar` runs seven independent single-pass
reducers over the same line list.  Each reducer only ever inspects a
line through a fixed regex search, a fixed substring test, or the
whitespace-split token list.  `OutcarLine` records exactly those
observations of one line. -/

structure OutcarLine where
  /-- result of searching `free  energy   TOTEN  =\s+(-?\d+\.\d+)\s+eV` -/
  energyMatch : Option ℚ := none
  /-- result of searching `E-fermi :\s+(-?\d+\.\d+)` -/
  fermiMatch : Option ℚ := none
  /-- result of searching `in kB` followed by three numbers -/
  stressMatch : Option (ℚ × ℚ × ℚ) := none
  /-- result of searching `Total CPU time used (sec):\s+(\d+\.\d+)` -/
  cpuMatch : Option ℚ := none
  /-- result of searching `Elapsed time (sec):\s+(\d+\.\d+)` -/
  elapsedMatch : Option ℚ := none
  /-- `'TOTAL-FORCE (eV/Angst)' in line` -/
  hasForceHeader : Bool := false
  /-- `'FORCE on cell =-STRESS in cart. coord.  units (eV):' in line` -/
  hasStressHeader : Bool := false
  /-- `'magnetization (x)' in line` -/
  hasMagHeader : Bool := false
  /-- `line.strip() == '' or '---' in line` -/
  blankOrSep : Bool := false
  /-- `'reached required accuracy' in line` -/
  hasAccuracy : Bool := false
  /-- `'ITERATION' in line and 'ENERGY' in line` -/
  hasIterEnergy : Bool := false
  /-- `'DAV:' in line or 'RMM:' in line` -/
  hasDavRmm : Bool := false
  /-- `'POSITION' in line and 'TOTAL-FORCE' in line` -/
  hasPositionForce : Bool := false
  /-- `line.split()`: one entry per whitespace-separated token,
  `some v` when `float(token)` succeeds with value `v`, `none` when
  `float(token)` would raise `ValueError`. -/
  tokens : List (Option ℚ) := []
deriving DecidableEq, Repr

/-- The `data` dictionary built by `EnergyAnalyzer._parse_outcar`.
The `timing` sub-dictionary has exactly the two possible keys
`total_cpu_time` and `elapsed_time`, modelled as two optional fields. -/
structure EnergyRecord where
  energies : List ℚ
  forces : List (List (ℚ × ℚ × ℚ))
  stress : List (List ℚ)
  fermi_energy : Option ℚ
  total_energy : Option ℚ
  convergence : Bool
  ionic_steps : Nat
  electronic_steps : List Nat
  timing_total_cpu_time : Option ℚ
  timing_elapsed_time : Option ℚ
  magnetic_moments : List (List ℚ)
deriving DecidableEq, Repr

namespace EnergyAnalyzer

/-- `_parse_energies`: every line whose energy regex matches appends
one sample, in file order. -/
def parseEnergies (lines : List OutcarLine) : List ℚ :=
  lines.filterMap (·.energyMatch)

/-- One row of a force block: `len(parts) >= 6` and fields 4–6 parse
as floats give a 3-vector; a `ValueError` is caught and the row
skipped (`continue`). -/
def forceRow (tokens : List (Option ℚ)) : Option (ℚ × ℚ × ℚ) :=
  if 6 ≤ tokens.length then
    match tokens.get? 3, tokens.get? 4, tokens.get? 5 with
    | some (some a), some (some b), some (some c) => some (a, b, c)
    | _, _, _ => none
  else none

/-- `_parse_forces` state machine: a force-block header enters the
block (resetting the buffer); inside the block a blank/separator line
flushes a non-empty buffer as one snapshot and leaves the block;
other lines contribute a row via `forceRow`.  A buffer still open at
end of file is dropped (the Python loop just ends). -/
def parseForcesAux : List OutcarLine → Bool → List (ℚ × ℚ × ℚ) →
    List (List (ℚ × ℚ × ℚ)) → List (List (ℚ × ℚ × ℚ))
  | [], _, _, acc => acc
  | l :: ls, inSec, cur, acc =>
    if l.hasForceHeader then parseForcesAux ls true [] acc
    else if inSec then
      if l.blankOrSep then
        parseForcesAux ls false [] (if cur.isEmpty then acc else acc ++ [cur])
      else
        match forceRow l.tokens with
        | some v => parseForcesAux ls true (cur ++ [v]) acc
        | none => parseForcesAux ls true cur acc
    else parseForcesAux ls false cur acc

def parseForces (lines : List OutcarLine) : List (List (ℚ × ℚ × ℚ)) :=
  parseForcesAux lines false [] []

/-- `_parse_stress` accumulation step: a matched 3-value stress row is
appended as a new batch when there is none yet or the last batch
already has ≥ 6 components, and extends the last batch otherwise. -/
def stressPush (acc : List (List ℚ)) (v : ℚ × ℚ × ℚ) : List (List ℚ) :=
  match acc.getLast? with
  | none => acc ++ [[v.1, v.2.1, v.2.2]]
  | some last =>
    if last.length < 6 then acc ++ [[v.1, v.2.1, v.2.2]]
    else acc.dropLast ++ [last ++ [v.1, v.2.1, v.2.2]]

/-- `_parse_stress`: each stress-header line at index `i` opens a
lookahead window `range(i+1, min(i+10, len(lines)))` searched for
3-value stress rows, which are pushed via `stressPush`. -/
def parseStress (lines : List OutcarLine) : List (List ℚ) :=
  (List.range lines.length).foldl
    (fun acc i =>
      if (lines.getD i {}).hasStressHeader then
        (List.range' (i + 1) (min (i + 10) lines.length - (i + 1))).foldl
          (fun acc2 j =>
            match (lines.getD j {}).stressMatch with
            | some v => stressPush acc2 v
            | none => acc2)
          acc
      else acc)
    []

/-- `_parse_fermi_energy`: every match overwrites, so the last match
wins. -/
def parseFermi (lines : List OutcarLine) : Option ℚ :=
  (lines.filterMap (·.fermiMatch)).getLast?

/-- One row of a magnetization block: `len(parts) >= 5` and field 5
parses as a float; a `ValueError` skips the row. -/
def magRow (tokens : List (Option ℚ)) : Option ℚ :=
  if 5 ≤ tokens.length then (tokens.get? 4).bind id else none

/-- `_parse_magnetic_moments`: same two-state block machine as
`parseForcesAux`, triggered by the magnetization header. -/
def parseMagAux : List OutcarLine → Bool → List ℚ →
    List (List ℚ) → List (List ℚ)
  | [], _, _, acc => acc
  | l :: ls, inSec, cur, acc =>
    if l.hasMagHeader then parseMagAux ls true [] acc
    else if inSec then
      if l.blankOrSep then
        parseMagAux ls false [] (if cur.isEmpty then acc else acc ++ [cur])
      else
        match magRow l.tokens with
        | some v => parseMagAux ls true (cur ++ [v]) acc
        | none => parseMagAux ls true cur acc
    else parseMagAux ls false cur acc

def parseMagneticMoments (lines : List OutcarLine) : List (List ℚ) :=
  parseMagAux lines false [] []

/-- `_parse_timing`, key `total_cpu_time`: last match wins. -/
def parseCpuTime (lines : List OutcarLine) : Option ℚ :=
  (lines.filterMap (·.cpuMatch)).getLast?

/-- `_parse_timing`, key `elapsed_time`: last match wins. -/
def parseElapsedTime (lines : List OutcarLine) : Option ℚ :=
  (lines.filterMap (·.elapsedMatch)).getLast?

/-- `_check_convergence` step-counting loop: state is
(ionic step count, electronic-step list, current electronic count).
The `elif` chain gives the iteration marker priority over the
DAV/RMM marker, which has priority over the position/force marker. -/
def stepCount (lines : List OutcarLine) : Nat × List Nat × Nat :=
  lines.foldl
    (fun st l =>
      let (ionic, elec, cur) := st
      if l.hasIterEnergy then (ionic, elec, 0)
      else if l.hasDavRmm then (ionic, elec, cur + 1)
      else if l.hasPositionForce then
        (ionic + 1, if 0 < cur then elec ++ [cur] else elec, 0)
      else st)
    (0, [], 0)

/-- `_parse_outcar`: assembles the record from the seven reducers.
`total_energy` is the last parsed energy when any exists, and the
accuracy-reached marker anywhere sets `convergence`. -/
def parseOutcar (lines : List OutcarLine) : EnergyRecord :=
  let energies := parseEnergies lines
  let steps := stepCount lines
  { energies := energies
    forces := parseForces lines
    stress := parseStress lines
    fermi_energy := parseFermi lines
    total_energy := energies.getLast?
    convergence := lines.any (·.hasAccuracy)
    ionic_steps := steps.1
    electronic_steps := steps.2.1
    timing_total_cpu_time := parseCpuTime lines
    timing_elapsed_time := parseElapsedTime lines
    magnetic_moments := parseMagneticMoments lines }

/-- `EnergyAnalyzer.load_data`: `none` models a non-existent OUTCAR
(`self.outcar_path.exists()` false), on which a `FileFormatError`
"OUTCAR file not found" is raised; otherwise the file's lines are
parsed (the parser itself is total). -/
def load_data (outcar : Option (List OutcarLine)) :
    Except PyErr EnergyRecord :=
  match outcar with
  | none => .error (.fileFormat .outcarNotFound)
  | some lines => .ok (parseOutcar lines)

end EnergyAnalyzer

/-! ## Density-of-states log (DOSCAR)

A DOSCAR line is abstracted into its whitespace-split token list;
each token is `some v` when `float(token)` succeeds with value `v`. -/

/-- `line.split()` for one DOSCAR line. -/
abbrev DoscarLine := List (Option ℚ)

/-- `parts[k]` followed by `float(...)`: `IndexError` when the index
is out of range, `ValueError` when the token is not numeric. -/
def pyFloatAt (parts : DoscarLine) (k : Nat) : Except PyErr ℚ :=
  match parts.get? k with
  | none => .error .indexError
  | some none => .error .valueError
  | some (some v) => .ok v

/-- `parts[k]` followed by `int(...)`: like `pyFloatAt`, and `int()`
additionally rejects a token carrying a non-integer value. -/
def pyIntAt (parts : DoscarLine) (k : Nat) : Except PyErr ℤ :=
  match parts.get? k with
  | none => .error .indexError
  | some none => .error .valueError
  | some (some v) => if v.den = 1 then .ok v.num else .error .valueError

/-- The header dictionary of `DOSAnalyzer._parse_header`. -/
structure DosHeader where
  natoms : ℤ
  nedos : ℤ
  efermi : ℚ
  /-- inferred: 2 when line 5 has more than 4 fields, else 1 -/
  ispin : Nat
deriving DecidableEq, Repr

/-- `total_dos`: a dictionary with key `total` (non-spin-polarized)
or keys `up` and `down` (spin-polarized).  Either way it is a Python
`dict`, which matters below: `get_dos_at_fermi` and `integrate_dos`
treat it as a numpy array. -/
inductive TotalDos where
  | single (total : List ℚ)
  | spin (up down : List ℚ)
deriving DecidableEq, Repr

/-- The record returned by `DOSAnalyzer._parse_doscar`.  The
`partial_dos` entry is omitted: `_parse_partial_dos` always returns
the empty mapping. -/
structure DosData where
  header : DosHeader
  energies : List ℚ
  totalDos : TotalDos
  is_spin_polarized : Bool
deriving DecidableEq, Repr

namespace DOSAnalyzer

/-- `_parse_header`: atom count from line 1 field 1 (`int`), nedos and
fermi energy from line 6 fields 3 and 4, spin inferred from the field
count of line 5.  Lines 1–6 exist (the caller checked `len(lines) ≥ 6`),
but the field accesses can still raise. -/
def parseHeader (lines : List DoscarLine) : Except PyErr DosHeader := do
  let natoms ← pyIntAt (lines.getD 0 []) 0
  let nedos ← pyIntAt (lines.getD 5 []) 2
  let efermi ← pyFloatAt (lines.getD 5 []) 3
  let ispin := if 4 < (lines.getD 4 []).length then 2 else 1
  return { natoms := natoms, nedos := nedos, efermi := efermi, ispin := ispin }

/-- The body loop of `_parse_dos_data`: `i` is the current line index,
the second argument the number of loop iterations left
(`range(6, 6 + nedos)`), and `es us ds ts` the accumulated `energies`,
`total_dos['up']`, `total_dos['down']`, `total_dos['total']` lists.
`i >= len(lines)` breaks; a line with fewer than 2 fields is skipped
(`continue`); otherwise field 1 is an energy and field 2 (plus field 3
when present, in the spin-polarized case) are densities. -/
def parseDosBodyAux (lines : List DoscarLine) (ispin : Nat) :
    Nat → Nat → List ℚ → List ℚ → List ℚ → List ℚ →
    Except PyErr (List ℚ × List ℚ × List ℚ × List ℚ)
  | _, 0, es, us, ds, ts => .ok (es, us, ds, ts)
  | i, n + 1, es, us, ds, ts =>
    match lines.get? i with
    | none => .ok (es, us, ds, ts)
    | some parts =>
      if parts.length < 2 then
        parseDosBodyAux lines ispin (i + 1) n es us ds ts
      else
        match pyFloatAt parts 0 with
        | .error e => .error e
        | .ok en =>
          if ispin = 2 then
            match pyFloatAt parts 1 with
            | .error e => .error e
            | .ok up =>
              match (if 2 < parts.length then pyFloatAt parts 2 else .ok 0) with
              | .error e => .error e
              | .ok down =>
                parseDosBodyAux lines ispin (i + 1) n
                  (es ++ [en]) (us ++ [up]) (ds ++ [down]) ts
          else
            match pyFloatAt parts 1 with
            | .error e => .error e
            | .ok t =>
              parseDosBodyAux lines ispin (i + 1) n
                (es ++ [en]) us ds (ts ++ [t])

/-- `_parse_dos_data`: the total DOS occupies `nedos` lines starting
at line index 6 (`start_line = 6`); a negative `nedos` gives an empty
`range`, modelled by `Int.toNat`. -/
def parseDosData (lines : List DoscarLine) (header : DosHeader) :
    Except PyErr (List ℚ × TotalDos) :=
  match parseDosBodyAux lines header.ispin 6 header.nedos.toNat [] [] [] [] with
  | .error e => .error e
  | .ok (es, us, ds, ts) =>
    .ok (es, if header.ispin = 2 then .spin us ds else .single ts)

/-- `_parse_doscar`: fewer than 6 lines is a hard
`FileFormatError("DOSCAR file too short")`; otherwise header then
body are parsed. -/
def parseDoscar (lines : List DoscarLine) : Except PyErr DosData :=
  if lines.length < 6 then .error (.fileFormat .doscarTooShort)
  else
    match parseHeader lines with
    | .error e => .error e
    | .ok header =>
      match parseDosData lines header with
      | .error e => .error e
      | .ok (es, td) =>
        .ok { header := header, energies := es, totalDos := td,
              is_spin_polarized := header.ispin = 2 }

/-- A calculation directory as `DOSAnalyzer` sees it: the DOSCAR and
OUTCAR files, `none` when the file does not exist. -/
structure CalcDir where
  doscar : Option (List DoscarLine)
  outcar : Option (List OutcarLine)

/-- The analyzer state after `DOSAnalyzer.load_data`. -/
structure DosState where
  dos_data : DosData
  fermi_energy : Option ℚ
deriving DecidableEq, Repr

/-- `DOSAnalyzer.load_data`: missing DOSCAR raises
`FileFormatError("DOSCAR file not found")`; otherwise the DOSCAR is
parsed, and when the companion OUTCAR exists the fermi energy is taken
from `EnergyAnalyzer.load_data` on it (the fermi energy stays `None`,
its `__init__` value, when the OUTCAR is absent). -/
def load_data (dir : CalcDir) : Except PyErr DosState :=
  match dir.doscar with
  | none => .error (.fileFormat .doscarNotFound)
  | some dlines =>
    match parseDoscar dlines with
    | .error e => .error e
    | .ok dd =>
      let fermi :=
        match dir.outcar with
        | none => none
        | some olines => (EnergyAnalyzer.parseOutcar olines).fermi_energy
      .ok { dos_data := dd, fermi_energy := fermi }

/-- `np.argmin` over a list: index of the first minimum; numpy raises
`ValueError` on an empty array. -/
def npArgminAux : List ℚ → Nat → Nat → ℚ → Nat
  | [], _, bi, _ => bi
  | x :: xs, i, bi, bv =>
    if x < bv then npArgminAux xs (i + 1) i x
    else npArgminAux xs (i + 1) bi bv

def npArgmin : List ℚ → Except PyErr Nat
  | [] => .error .valueError
  | x :: xs => .ok (npArgminAux xs 1 0 x)

/-- `DOSAnalyzer.get_dos_at_fermi`, on a loaded analyzer (after
`load_data` the `dos_data` dictionary is non-empty, so the
`if not self.dos_data` reload guard is skipped).  The parsed record
always carries `energies` and `total_dos`, so of the three `is None`
guards only the fermi-energy one can fire, returning `0.0`.
Otherwise `fermi_idx = np.argmin(np.abs(energies - fermi))` is
computed, and then `len(total_dos.shape)` is evaluated — but
`total_dos` is the parser's `dict`, which has no attribute `shape`,
so an `AttributeError` is raised. -/
def get_dos_at_fermi (dd : DosData) (fermi : Option ℚ) : Except PyErr ℚ :=
  match fermi with
  | none => .ok 0
  | some f =>
    match npArgmin (dd.energies.map fun e => |e - f|) with
    | .error e => .error e
    | .ok _fermi_idx => .error .attributeError

/-- `DOSAnalyzer.integrate_dos`, on a loaded analyzer (reload guard
skipped as in `get_dos_at_fermi`).  A missing fermi energy returns
`0.0`; so does a selection mask with no `True` entry.  When the mask
does select samples, `total_dos[mask]` indexes the parser's `dict`
with a numpy boolean array — an unhashable key — raising `TypeError`
before any integration happens. -/
def integrate_dos (dd : DosData) (fermi : Option ℚ) (emin emax : ℚ) :
    Except PyErr ℚ :=
  match fermi with
  | none => .ok 0
  | some f =>
    if (dd.energies.map fun e =>
        decide (emin ≤ e - f) && decide (e - f ≤ emax)).any id then
      .error .typeError
    else .ok 0

end DOSAnalyzer

/-! ## EnergyAnalyzer.analyze_convergence -/

namespace EnergyAnalyzer

/-- `max` of a non-empty Python sequence. -/
def pyMax (x : ℚ) (xs : List ℚ) : ℚ := xs.foldl max x

/-- `min` of a non-empty Python sequence. -/
def pyMin (x : ℚ) (xs : List ℚ) : ℚ := xs.foldl min x

/-- The dictionary built by `EnergyAnalyzer.analyze_convergence`. -/
structure ConvergenceAnalysis where
  is_converged : Bool
  ionic_steps : Nat
  electronic_steps : List Nat
  energy_change : Option ℚ
  max_force : Option ℚ
  rms_force : Option ℚ
deriving DecidableEq, Repr

/-- `energy_change`: `abs(energies[-1] - energies[-2])` when at least
two energies exist (the reverse of the list starts with the last and
second-last samples), else `None`. -/
def energyChange (energies : List ℚ) : Option ℚ :=
  match energies.reverse with
  | a :: b :: _ => some |a - b|
  | _ => none

/-- `np.max(np.linalg.norm(final_forces, axis=1))` over a non-empty
final snapshot `v :: vs`: the largest per-atom vector norm.  The
floating-point square root is abstracted as the parameter `sqrt`. -/
def maxForceOf (sqrt : ℚ → ℚ) (v : ℚ × ℚ × ℚ) (vs : List (ℚ × ℚ × ℚ)) : ℚ :=
  pyMax (sqrt (v.1 ^ 2 + v.2.1 ^ 2 + v.2.2 ^ 2))
    (vs.map fun w => sqrt (w.1 ^ 2 + w.2.1 ^ 2 + w.2.2 ^ 2))

/-- `np.sqrt(np.mean(np.sum(final_forces**2, axis=1)))` over a
non-empty final snapshot `v :: vs`. -/
def rmsForceOf (sqrt : ℚ → ℚ) (v : ℚ × ℚ × ℚ) (vs : List (ℚ × ℚ × ℚ)) : ℚ :=
  sqrt ((((v :: vs).map fun w => w.1 ^ 2 + w.2.1 ^ 2 + w.2.2 ^ 2).sum)
    / (v :: vs).length)

/-- `EnergyAnalyzer.analyze_convergence` on a loaded record.
`energy_change` stays `None` for fewer than two energies; the force
metrics stay `None` when no force snapshot exists.  `np.max` over the
per-atom norms of an empty final snapshot raises `ValueError`
(snapshots produced by the parser are never empty, but the method is
modelled on an arbitrary record). -/
def analyze_convergence (sqrt : ℚ → ℚ) (r : EnergyRecord) :
    Except PyErr ConvergenceAnalysis :=
  match r.forces.getLast? with
  | none =>
    .ok { is_converged := r.convergence, ionic_steps := r.ionic_steps,
          electronic_steps := r.electronic_steps,
          energy_change := energyChange r.energies,
          max_force := none, rms_force := none }
  | some [] => .error .valueError
  | some (v :: vs) =>
    .ok { is_converged := r.convergence, ionic_steps := r.ionic_steps,
          electronic_steps := r.electronic_steps,
          energy_change := energyChange r.energies,
          max_force := some (maxForceOf sqrt v vs),
          rms_force := some (rmsForceOf sqrt v vs) }

end EnergyAnalyzer

/-! ## NEBAnalyzer (neb_analysis.py) -/

namespace NEBAnalyzer

/-- `calculate_activation_energy`: `None` for fewer than 3 images,
else `max(neb_energies) - neb_energies[0]`. -/
def calculate_activation_energy : List ℚ → Option ℚ
  | [] => none
  | x :: xs =>
    if (x :: xs).length < 3 then none
    else some (EnergyAnalyzer.pyMax x xs - x)

/-- `calculate_reaction_energy`: `None` for fewer than 2 images, else
`neb_energies[-1] - neb_energies[0]`. -/
def calculate_reaction_energy : List ℚ → Option ℚ
  | [] => none
  | x :: xs =>
    if (x :: xs).length < 2 then none
    else some ((x :: xs).getLast (List.cons_ne_nil x xs) - x)

/-- `np.argmax` over a list: index of the first maximum. -/
def npArgmaxAux : List ℚ → Nat → Nat → ℚ → Nat
  | [], _, bi, _ => bi
  | x :: xs, i, bi, bv =>
    if bv < x then npArgmaxAux xs (i + 1) i x
    else npArgmaxAux xs (i + 1) bi bv

/-- `find_transition_state_index`: `None` for an empty path, else
`np.argmax(neb_energies)`. -/
def find_transition_state_index : List ℚ → Option Nat
  | [] => none
  | x :: xs => some (npArgmaxAux xs 1 0 x)

/-- `_classify_reaction`, of the `reaction_energy` and
`activation_energy` entries of the analysis dictionary: `unknown` when
either is absent; otherwise `isomerization` for `|ΔE| < 0.1`,
`exothermic` for `ΔE < -0.1`, `endothermic` for `ΔE > 0.1`, and
`thermoneutral` otherwise. -/
def classifyReaction (reactionE activationE : Option ℚ) : String :=
  match reactionE, activationE with
  | some re, some _ =>
    if |re| < 1/10 then "isomerization"
    else if re < -(1/10) then "exothermic"
    else if re > 1/10 then "endothermic"
    else "thermoneutral"
  | _, _ => "unknown"

/-- The part of the `convergence_info` dictionary that
`analyze_neb_convergence` would return. -/
structure NebConvergence where
  converged : Bool
  ionic_steps : Nat
deriving DecidableEq, Repr

/-- `NEBAnalyzer.analyze_neb_convergence` on a loaded analyzer
(`outcar_data` set).  It fills `converged` and `ionic_steps`, then
evaluates `hasattr(self.outcar, 'final_forces')` — but `NEBAnalyzer`
only ever assigns `outcar_path`, `energy_analyzer` and `outcar_data`,
never `outcar`, so the attribute lookup `self.outcar` itself raises
`AttributeError` unconditionally. -/
def analyze_neb_convergence (d : EnergyRecord) : Except PyErr NebConvergence :=
  let _converged := d.convergence
  let _ionic_steps := d.energies.length
  .error .attributeError

/-- The per-path part of the `analysis` dictionary built by
`analyze_transition_state` before the convergence step. -/
structure TsAnalysis where
  neb_energies : List ℚ
  activation_energy : Option ℚ
  reaction_energy : Option ℚ
  transition_state_index : Option Nat
  reaction_type : String
deriving DecidableEq, Repr

/-- `NEBAnalyzer.analyze_transition_state` on a loaded analyzer, with
`neb_energies` the result of `extract_neb_energies` (whose regex scan
over the raw text is not modelled; it never raises — every exception
is swallowed).  The energy-derived entries are computed, and then
line 199 calls `analyze_neb_convergence`, whose unconditional
`AttributeError` propagates out before `reaction_type` would be
assigned. -/
def analyze_transition_state (neb_energies : List ℚ) (d : EnergyRecord) :
    Except PyErr TsAnalysis :=
  let activation := calculate_activation_energy neb_energies
  let reaction := calculate_reaction_energy neb_energies
  let ts := find_transition_state_index neb_energies
  match analyze_neb_convergence d with
  | .error e => .error e
  | .ok _ =>
    .ok { neb_energies := neb_energies, activation_energy := activation,
          reaction_energy := reaction, transition_state_index := ts,
          reaction_type := classifyReaction reaction activation }

end NEBAnalyzer

/-! ## MDAnalyzer (md_analysis.py) -/

namespace MDAnalyzer

/-- `MDAnalyzer.analyze_trajectory` on a loaded analyzer.  It reads
`energies` from the record, then evaluates `self.outcar.ionic_steps` —
but `MDAnalyzer` only ever assigns `outcar_path`, `energy_analyzer`
and `outcar_data`, never `outcar`, so the attribute lookup raises
`AttributeError` unconditionally. -/
def analyze_trajectory (d : EnergyRecord) : Except PyErr Unit :=
  let _energies := d.energies
  .error .attributeError

end MDAnalyzer

/-! ## BandAnalyzer (band_analysis.py) -/

namespace BandAnalyzer

/-- The analyzer state after `BandAnalyzer.load_data`. -/
structure BandState where
  outcar_data : EnergyRecord
  fermi_energy : Option ℚ
  eigenvalues : Option (List ℚ)
deriving DecidableEq, Repr

/-- `BandAnalyzer.load_data`: a missing OUTCAR propagates
`EnergyAnalyzer.load_data`'s `FileFormatError`; otherwise the energy
record and its fermi energy are stored, and `eigenvalues` (and
`kpoints`, not modelled) are explicitly set to `None`. -/
def load_data (outcar : Option (List OutcarLine)) : Except PyErr BandState :=
  match EnergyAnalyzer.load_data outcar with
  | .error e => .error e
  | .ok d =>
    .ok { outcar_data := d, fermi_energy := d.fermi_energy,
          eigenvalues := none }

/-- `BandAnalyzer.calculate_band_gap` on a loaded analyzer (the parsed
`outcar_data` dictionary is non-empty, so the reload guard is
skipped): `None` when `eigenvalues` or `fermi_energy` is absent; else
occupied/unoccupied partition at the fermi energy, gap `cbm - vbm`,
reported as `0.0` when below `0.01`; `None` when either side of the
partition is empty. -/
def calculate_band_gap (st : BandState) : Option ℚ :=
  match st.eigenvalues, st.fermi_energy with
  | some evs, some f =>
    match evs.filter (fun e => e ≤ f), evs.filter (fun e => f < e) with
    | o :: os, u :: us =>
      let vbm := EnergyAnalyzer.pyMax o os
      let cbm := EnergyAnalyzer.pyMin u us
      let gap := cbm - vbm
      if gap < 1/100 then some 0 else some gap
    | _, _ => none
  | _, _ => none

/-- The `extrema` dictionary of `get_band_extrema`; a key absent from
the dictionary is a `none` field. -/
structure BandExtrema where
  vbm : Option ℚ
  vbm_relative : Option ℚ
  cbm : Option ℚ
  cbm_relative : Option ℚ
  fermi_energy : Option ℚ
deriving DecidableEq, Repr

/-- `BandAnalyzer.get_band_extrema` on a loaded analyzer: the empty
dictionary unless both `eigenvalues` and `fermi_energy` are present,
in which case vbm/cbm (with fermi-relative values) are filled for
whichever side of the partition is non-empty, plus the fermi energy. -/
def get_band_extrema (st : BandState) : BandExtrema :=
  match st.eigenvalues, st.fermi_energy with
  | some evs, some f =>
    let vbm? := match evs.filter (fun e => e ≤ f) with
      | [] => none
      | o :: os => some (EnergyAnalyzer.pyMax o os)
    let cbm? := match evs.filter (fun e => f < e) with
      | [] => none
      | u :: us => some (EnergyAnalyzer.pyMin u us)
    { vbm := vbm?, vbm_relative := vbm?.map (· - f),
      cbm := cbm?, cbm_relative := cbm?.map (· - f),
      fermi_energy := some f }
  | _, _ =>
    { vbm := none, vbm_relative := none, cbm := none,
      cbm_relative := none, fermi_energy := none }

/-- The dictionary of `analyze_electronic_structure`. -/
structure ElectronicStructure where
  band_gap : Option ℚ
  band_extrema : BandExtrema
  fermi_energy : Option ℚ
  material_type : String
deriving DecidableEq, Repr

/-- `BandAnalyzer.analyze_electronic_structure` on a loaded analyzer:
bundles gap, extrema and fermi energy; `material_type` is classified
from the gap (`metal` at 0, `semimetal` below 0.5, `semiconductor`
below 3.0, `insulator` otherwise) and is `"unknown"` when the gap is
absent. -/
def analyze_electronic_structure (st : BandState) : ElectronicStructure :=
  let bg := calculate_band_gap st
  { band_gap := bg, band_extrema := get_band_extrema st,
    fermi_energy := st.fermi_energy,
    material_type :=
      match bg with
      | none => "unknown"
      | some g =>
        if g = 0 then "metal"
        else if g < 1/2 then "semimetal"
        else if g < 3 then "semiconductor"
        else "insulator" }

end BandAnalyzer

/-! ## Shared concrete inputs and helper facts -/

deriving instance DecidableEq for Except

/-- The record `_parse_outcar` produces when no reducer fires:
all sequences empty, no scalars, `convergence = false`. -/
def emptyEnergyRecord : EnergyRecord :=
  { energies := [], forces := [], stress := [], fermi_energy := none,
    total_energy := none, convergence := false, ionic_steps := 0,
    electronic_steps := [], timing_total_cpu_time := none,
    timing_elapsed_time := none, magnetic_moments := [] }

/-- An energy-log line on which none of the extractor's regex searches,
substring tests or marker tests fire (blank/separator status and the
token list are irrelevant outside an open block, and no block can open
without a header line). -/
def UnmatchedLine (l : OutcarLine) : Prop :=
  l.energyMatch = none ∧ l.fermiMatch = none ∧ l.stressMatch = none ∧
  l.cpuMatch = none ∧ l.elapsedMatch = none ∧ l.hasForceHeader = false ∧
  l.hasStressHeader = false ∧ l.hasMagHeader = false ∧
  l.hasAccuracy = false ∧ l.hasIterEnergy = false ∧
  l.hasDavRmm = false ∧ l.hasPositionForce = false

instance : DecidablePred UnmatchedLine := fun l => by
  unfold UnmatchedLine; infer_instance

/-- A map by a pointwise-false Boolean function has no `true` entry. -/
theorem anyMapFalse {α : Type} (l : List α) (g : α → Bool)
    (h : ∀ a ∈ l, g a = false) : (l.map g).any id = false := by
  induction l with
  | nil => rfl
  | cons a as ih =>
    simp only [List.map_cons, List.any_cons, Bool.or_eq_false_iff, id]
    exact ⟨h a (by simp), ih fun b hb => h b (by simp [hb])⟩

/-- The image-energy sequence of the reaction-path example:
`[0.0, 0.3, 0.8, 0.2, -0.1]`. -/
def c1Images : List ℚ := [0, 3/10, 8/10, 2/10, -(1/10)]

/-! ## C1 -/

/-- C1 (corrected): on images `[0.0, 0.3, 0.8, 0.2, -0.1]` the
reaction-path analyzer returns activation energy `0.8`, reaction
energy `-0.1` and transition-state index `2` as claimed, but
`_classify_reaction` classifies the reaction as `"thermoneutral"`:
the reaction energy sits exactly on the `±0.1` threshold, and all
three threshold comparisons are strict, so the final `else` branch is
taken. -/
theorem c1_path_example_classification :
    NEBAnalyzer.calculate_activation_energy c1Images = some (8/10) ∧
    NEBAnalyzer.calculate_reaction_energy c1Images = some (-(1/10)) ∧
    NEBAnalyzer.find_transition_state_index c1Images = some 2 ∧
    NEBAnalyzer.classifyReaction
      (NEBAnalyzer.calculate_reaction_energy c1Images)
      (NEBAnalyzer.calculate_activation_energy c1Images)
      = "thermoneutral" := by
  have habs : |(-(1/10) : ℚ)| = 1/10 := by
    rw [abs_neg]; exact abs_of_nonneg (by norm_num)
  have hact : NEBAnalyzer.calculate_activation_energy c1Images
      = some (8/10) := by
    norm_num [NEBAnalyzer.calculate_activation_energy, c1Images,
      EnergyAnalyzer.pyMax, max_def]
  have hrea : NEBAnalyzer.calculate_reaction_energy c1Images
      = some (-(1/10)) := by
    norm_num [NEBAnalyzer.calculate_reaction_energy, c1Images,
      List.getLast]
  have hts : NEBAnalyzer.find_transition_state_index c1Images
      = some 2 := by
    norm_num [NEBAnalyzer.find_transition_state_index, c1Images,
      NEBAnalyzer.npArgmaxAux]
  refine ⟨hact, hrea, hts, ?_⟩
  rw [hrea, hact]
  norm_num [NEBAnalyzer.classifyReaction, habs]

/-- C1 counterexample: the classification of the example path is not
`"exothermic"` (it is `"thermoneutral"`), refuting the claim as
stated. -/
theorem c1_counterexample :
    ¬ NEBAnalyzer.classifyReaction
        (NEBAnalyzer.calculate_reaction_energy c1Images)
        (NEBAnalyzer.calculate_activation_energy c1Images)
        = "exothermic" := by
  have habs : |(-(1/10) : ℚ)| = 1/10 := by
    rw [abs_neg]; exact abs_of_nonneg (by norm_num)
  have hrea : NEBAnalyzer.calculate_reaction_energy c1Images
      = some (-(1/10)) := by
    norm_num [NEBAnalyzer.calculate_reaction_energy, c1Images,
      List.getLast]
  have hact : NEBAnalyzer.calculate_activation_energy c1Images
      = some (8/10) := by
    norm_num [NEBAnalyzer.calculate_activation_energy, c1Images,
      EnergyAnalyzer.pyMax, max_def]
  rw [hrea, hact]
  norm_num [NEBAnalyzer.classifyReaction, habs]
  decide

/-! ## C2 -/

/-- C2 (code bug): on the record of an existing, readable (here:
empty) energy log, `NEBAnalyzer.analyze_neb_convergence`,
`NEBAnalyzer.analyze_transition_state` and
`MDAnalyzer.analyze_trajectory` all raise `AttributeError` instead of
completing with absent metrics: both classes evaluate `self.outcar`,
an attribute neither class ever assigns. -/
theorem c2_composite_analyzers_raise :
    NEBAnalyzer.analyze_neb_convergence (EnergyAnalyzer.parseOutcar [])
      = .error .attributeError ∧
    NEBAnalyzer.analyze_transition_state [] (EnergyAnalyzer.parseOutcar [])
      = .error .attributeError ∧
    MDAnalyzer.analyze_trajectory (EnergyAnalyzer.parseOutcar [])
      = .error .attributeError :=
  ⟨rfl, rfl, rfl⟩

/-! ## C3 -/

/-- A loaded non-spin-polarized DOS record with sampled energies
`[-1.0, 0.0, 1.0]`. -/
def c3Data : DosData :=
  { header := { natoms := 1, nedos := 3, efermi := 2/5, ispin := 1 },
    energies := [-1, 0, 1], totalDos := .single [1, 2, 3],
    is_spin_polarized := false }

/-- C3 (code bug): for energies `[-1.0, 0.0, 1.0]` and fermi energy
`0.4`, `np.argmin` does select index 1 (the nearest-energy index), as
claimed — but `get_dos_at_fermi` then raises `AttributeError` instead
of returning the density at that index, because it takes
`total_dos.shape` of the `dict` the parser produced. -/
theorem c3_dos_at_fermi_raises :
    DOSAnalyzer.npArgmin (c3Data.energies.map fun e => |e - 2/5|) = .ok 1 ∧
    DOSAnalyzer.get_dos_at_fermi c3Data (some (2/5))
      = .error .attributeError := by
  have h1 : |(-1 : ℚ) - 2/5| = 7/5 := by
    rw [show ((-1 : ℚ) - 2/5) = -(7/5) by norm_num, abs_neg]
    exact abs_of_nonneg (by norm_num)
  have h2 : |(0 : ℚ) - 2/5| = 2/5 := by
    rw [show ((0 : ℚ) - 2/5) = -(2/5) by norm_num, abs_neg]
    exact abs_of_nonneg (by norm_num)
  have h3 : |(1 : ℚ) - 2/5| = 3/5 := by
    rw [show ((1 : ℚ) - 2/5) = 3/5 by norm_num]
    exact abs_of_nonneg (by norm_num)
  constructor
  · show DOSAnalyzer.npArgmin
      ([(-1 : ℚ), 0, 1].map fun e => |e - 2/5|) = .ok 1
    simp only [List.map_cons, List.map_nil, h1, h2, h3]
    norm_num [DOSAnalyzer.npArgmin, DOSAnalyzer.npArgminAux]
  · rfl

/-! ## C5 -/

/-- C5 (confirmed): a non-existent source path makes both
`EnergyAnalyzer.load_data` and `DOSAnalyzer.load_data` raise the
repository's not-found failure (a `FileFormatError` carrying the
"file not found" message), whatever the rest of the calculation
directory holds. -/
theorem c5_missing_source_failure :
    EnergyAnalyzer.load_data none
      = .error (.fileFormat .outcarNotFound) ∧
    ∀ oc : Option (List OutcarLine),
      DOSAnalyzer.load_data ⟨none, oc⟩
        = .error (.fileFormat .doscarNotFound) :=
  ⟨rfl, fun _ => rfl⟩

/-- Witness for C5 at a concrete directory (no DOSCAR, no OUTCAR). -/
theorem c5_missing_source_failure_witness :
    DOSAnalyzer.load_data ⟨none, none⟩
      = .error (.fileFormat .doscarNotFound) :=
  c5_missing_source_failure.2 none

/-! ## C8 -/

/-- C8 (confirmed): on a loaded DOS record, a window (relative to the
fermi energy) selecting no sampled energies makes `integrate_dos`
return exactly `0.0`: the selection mask has no `True` entry, so the
method returns before touching the density data. -/
theorem c8_integrate_empty_window (dd : DosData) (f emin emax : ℚ)
    (h : ∀ e ∈ dd.energies, ¬ (emin ≤ e - f ∧ e - f ≤ emax)) :
    DOSAnalyzer.integrate_dos dd (some f) emin emax = .ok 0 := by
  have hmask : (dd.energies.map fun e =>
      decide (emin ≤ e - f) && decide (e - f ≤ emax)).any id = false := by
    refine anyMapFalse _ _ fun e he => ?_
    have := h e he
    simp only [Bool.and_eq_false_iff, decide_eq_false_iff_not]
    by_cases h1 : emin ≤ e - f
    · exact Or.inr fun h2 => this ⟨h1, h2⟩
    · exact Or.inl h1
  simp only [DOSAnalyzer.integrate_dos, hmask, Bool.false_eq_true,
    if_false]

/-- A loaded DOS record with the single sampled energy `0`. -/
def c8Data : DosData :=
  { header := { natoms := 1, nedos := 1, efermi := 0, ispin := 1 },
    energies := [0], totalDos := .single [1],
    is_spin_polarized := false }

/-- Witness for C8: the window `[1, 2]` relative to fermi energy `0`
contains no sample of `c8Data`, and the integral is `0`. -/
theorem c8_integrate_empty_window_witness :
    DOSAnalyzer.integrate_dos c8Data (some 0) 1 2 = .ok 0 :=
  c8_integrate_empty_window c8Data 0 1 2 (by
    intro e he
    simp only [c8Data, List.mem_singleton] at he
    subst he
    norm_num)

/-! ## C4: reducers on a log with no matching content -/

/-- A fold whose step ignores every element of the list fixes the
accumulator. -/
theorem foldlFixed {α β : Type} (f : α → β → α) (l : List β) (a : α)
    (h : ∀ x, ∀ b ∈ l, f x b = x) : l.foldl f a = a := by
  induction l generalizing a with
  | nil => rfl
  | cons b bs ih =>
    rw [List.foldl_cons, h a b (by simp)]
    exact ih a fun x c hc => h x c (by simp [hc])

/-- Without any force-block header the force state machine never
leaves the OUTSIDE state and flushes nothing. -/
theorem parseForcesAux_outside (lines : List OutcarLine)
    (cur : List (ℚ × ℚ × ℚ)) (acc : List (List (ℚ × ℚ × ℚ)))
    (h : ∀ l ∈ lines, l.hasForceHeader = false) :
    EnergyAnalyzer.parseForcesAux lines false cur acc = acc := by
  induction lines with
  | nil => rfl
  | cons l ls ih =>
    have hl : l.hasForceHeader = false := h l (by simp)
    simp only [EnergyAnalyzer.parseForcesAux, hl, Bool.false_eq_true,
      if_false]
    exact ih fun x hx => h x (by simp [hx])

/-- Without any magnetization header the magnetic-moment state machine
never leaves the OUTSIDE state and flushes nothing. -/
theorem parseMagAux_outside (lines : List OutcarLine)
    (cur : List ℚ) (acc : List (List ℚ))
    (h : ∀ l ∈ lines, l.hasMagHeader = false) :
    EnergyAnalyzer.parseMagAux lines false cur acc = acc := by
  induction lines with
  | nil => rfl
  | cons l ls ih =>
    have hl : l.hasMagHeader = false := h l (by simp)
    simp only [EnergyAnalyzer.parseMagAux, hl, Bool.false_eq_true,
      if_false]
    exact ih fun x hx => h x (by simp [hx])

/-- Without any stress header no lookahead window ever opens. -/
theorem parseStress_no_header (lines : List OutcarLine)
    (h : ∀ l ∈ lines, l.hasStressHeader = false) :
    EnergyAnalyzer.parseStress lines = [] := by
  unfold EnergyAnalyzer.parseStress
  refine foldlFixed _ _ _ fun acc i hi => ?_
  have hlt : i < lines.length := List.mem_range.mp hi
  have hmem : lines.getD i {} ∈ lines := by
    rw [List.getD_eq_getElem?_getD, List.getElem?_eq_getElem hlt]
    exact List.getElem_mem hlt
  simp only [h _ hmem, Bool.false_eq_true, if_false]

/-- Without any iteration, DAV/RMM or position/force marker the step
counter stays at its initial state. -/
theorem stepCount_no_markers (lines : List OutcarLine)
    (h : ∀ l ∈ lines, l.hasIterEnergy = false ∧ l.hasDavRmm = false ∧
      l.hasPositionForce = false) :
    EnergyAnalyzer.stepCount lines = (0, [], 0) := by
  unfold EnergyAnalyzer.stepCount
  refine foldlFixed _ _ _ fun st l hl => ?_
  obtain ⟨h1, h2, h3⟩ := h l hl
  obtain ⟨a, b, c⟩ := st
  simp only [h1, h2, h3, Bool.false_eq_true, if_false]

/-- C4 (confirmed): an existing energy log none of whose lines matches
any extractor pattern loads without failure into the record with all
sequences empty and `convergence = false`; an existing DOS log with
fewer than 6 lines makes the DOS extractor raise the malformed-format
failure `FileFormatError("DOSCAR file too short")`. -/
theorem c4_malformed_sources (olines : List OutcarLine)
    (ho : ∀ l ∈ olines, UnmatchedLine l)
    (dlines : List DoscarLine) (hd : dlines.length < 6) :
    EnergyAnalyzer.load_data (some olines) = .ok emptyEnergyRecord ∧
    DOSAnalyzer.parseDoscar dlines
      = .error (.fileFormat .doscarTooShort) := by
  constructor
  · have he : EnergyAnalyzer.parseEnergies olines = [] :=
      List.filterMap_eq_nil_iff.mpr fun l hl => (ho l hl).1
    have hfo : EnergyAnalyzer.parseForces olines = [] :=
      parseForcesAux_outside olines [] [] fun l hl =>
        (ho l hl).2.2.2.2.2.1
    have hs : EnergyAnalyzer.parseStress olines = [] :=
      parseStress_no_header olines fun l hl =>
        (ho l hl).2.2.2.2.2.2.1
    have hfe : EnergyAnalyzer.parseFermi olines = none := by
      unfold EnergyAnalyzer.parseFermi
      rw [List.filterMap_eq_nil_iff.mpr fun l hl => (ho l hl).2.1]
      rfl
    have hcpu : EnergyAnalyzer.parseCpuTime olines = none := by
      unfold EnergyAnalyzer.parseCpuTime
      rw [List.filterMap_eq_nil_iff.mpr fun l hl => (ho l hl).2.2.2.1]
      rfl
    have hel : EnergyAnalyzer.parseElapsedTime olines = none := by
      unfold EnergyAnalyzer.parseElapsedTime
      rw [List.filterMap_eq_nil_iff.mpr fun l hl =>
        (ho l hl).2.2.2.2.1]
      rfl
    have hmag : EnergyAnalyzer.parseMagneticMoments olines = [] :=
      parseMagAux_outside olines [] [] fun l hl =>
        (ho l hl).2.2.2.2.2.2.2.1
    have hconv : olines.any (·.hasAccuracy) = false :=
      List.any_eq_false.mpr fun l hl => by
        simp [(ho l hl).2.2.2.2.2.2.2.2.1]
    have hsc : EnergyAnalyzer.stepCount olines = (0, [], 0) :=
      stepCount_no_markers olines fun l hl =>
        ⟨(ho l hl).2.2.2.2.2.2.2.2.2.1,
         (ho l hl).2.2.2.2.2.2.2.2.2.2.1,
         (ho l hl).2.2.2.2.2.2.2.2.2.2.2⟩
    show Except.ok (EnergyAnalyzer.parseOutcar olines) = _
    unfold EnergyAnalyzer.parseOutcar
    rw [he, hfo, hs, hfe, hcpu, hel, hmag, hconv, hsc]
    rfl
  · unfold DOSAnalyzer.parseDoscar
    rw [if_pos hd]

/-- Witness for C4: a log of one blank non-matching line, and a
two-line DOS log. -/
theorem c4_malformed_sources_witness :
    EnergyAnalyzer.load_data
        (some [({ blankOrSep := true, tokens := [none] } : OutcarLine)])
      = .ok emptyEnergyRecord ∧
    DOSAnalyzer.parseDoscar [[], [some 1]]
      = .error (.fileFormat .doscarTooShort) :=
  c4_malformed_sources _ (by decide) _ (by decide)

/-! ## C7 -/

/-- C7 (confirmed): whenever `analyze_convergence` returns a result,
its `energy_change` is absent for fewer than two parsed energies and
equals `|last − second-last|` otherwise (the reverse of the energy
list starts with the last and second-last samples); for parsed
energies `[-10.0, -10.05, -10.051]` it is exactly `0.001`. -/
theorem c7_energy_change (sqrt : ℚ → ℚ) (r : EnergyRecord)
    (a : EnergyAnalyzer.ConvergenceAnalysis)
    (h : EnergyAnalyzer.analyze_convergence sqrt r = .ok a) :
    (r.energies.length < 2 → a.energy_change = none) ∧
    (∀ x y t, r.energies.reverse = x :: y :: t →
      a.energy_change = some |x - y|) ∧
    (r.energies = [-10, -1005/100, -10051/1000] →
      a.energy_change = some (1/1000)) := by
  have hec : a.energy_change = EnergyAnalyzer.energyChange r.energies := by
    unfold EnergyAnalyzer.analyze_convergence at h
    split at h
    · injection h with h
      subst h
      rfl
    · exact absurd h (by simp)
    · injection h with h
      subst h
      rfl
  refine ⟨?_, ?_, ?_⟩
  · intro hlen
    rw [hec]
    unfold EnergyAnalyzer.energyChange
    match hrev : r.energies.reverse with
    | [] => rfl
    | [x] => rfl
    | x :: y :: t =>
      exfalso
      have hL := congrArg List.length hrev
      simp only [List.length_reverse, List.length_cons] at hL
      omega
  · intro x y t hrev
    rw [hec]
    unfold EnergyAnalyzer.energyChange
    rw [hrev]
  · intro hE
    rw [hec, hE]
    have hv : ((-10051/1000 : ℚ)) - (-1005/100) = -(1/1000) := by
      norm_num
    unfold EnergyAnalyzer.energyChange
    simp only [List.reverse_cons, List.reverse_nil, List.nil_append,
      List.cons_append, List.singleton_append]
    rw [hv, abs_neg, abs_of_nonneg (by norm_num)]

/-- The record with exactly the example energies and nothing else. -/
def c7Record : EnergyRecord :=
  { emptyEnergyRecord with energies := [-10, -1005/100, -10051/1000] }

/-- The analysis `analyze_convergence` produces on `c7Record`. -/
def c7Result : EnergyAnalyzer.ConvergenceAnalysis :=
  { is_converged := false, ionic_steps := 0, electronic_steps := [],
    energy_change := EnergyAnalyzer.energyChange c7Record.energies,
    max_force := none, rms_force := none }

/-- Witness for C7: on `c7Record` the analysis succeeds and its
`energy_change` is exactly `0.001`. -/
theorem c7_energy_change_witness :
    EnergyAnalyzer.analyze_convergence id c7Record = .ok c7Result ∧
    c7Result.energy_change = some (1/1000) :=
  ⟨rfl, (c7_energy_change id c7Record c7Result rfl).2.2 rfl⟩

/-! ## C9 -/

/-- C9 (confirmed): whatever the OUTCAR contains, `BandAnalyzer.load_data`
leaves `eigenvalues` absent, so on the loaded state
`calculate_band_gap` is always absent, `get_band_extrema` is always
the empty mapping, and `analyze_electronic_structure` always reports
`material_type = "unknown"`; the metal/semimetal/semiconductor/
insulator branches are unreachable through the public interface. -/
theorem c9_band_eigenvalues_never_populated
    (olines : List OutcarLine) (st : BandAnalyzer.BandState)
    (h : BandAnalyzer.load_data (some olines) = .ok st) :
    st.eigenvalues = none ∧
    BandAnalyzer.calculate_band_gap st = none ∧
    BandAnalyzer.get_band_extrema st
      = { vbm := none, vbm_relative := none, cbm := none,
          cbm_relative := none, fermi_energy := none } ∧
    (BandAnalyzer.analyze_electronic_structure st).material_type
      = "unknown" := by
  have hst : st =
      { outcar_data := EnergyAnalyzer.parseOutcar olines,
        fermi_energy := (EnergyAnalyzer.parseOutcar olines).fermi_energy,
        eigenvalues := none } := by
    unfold BandAnalyzer.load_data EnergyAnalyzer.load_data at h
    injection h with h
    exact h.symm
  subst hst
  have hbg : BandAnalyzer.calculate_band_gap
      { outcar_data := EnergyAnalyzer.parseOutcar olines,
        fermi_energy := (EnergyAnalyzer.parseOutcar olines).fermi_energy,
        eigenvalues := none } = none := by
    unfold BandAnalyzer.calculate_band_gap
    cases (EnergyAnalyzer.parseOutcar olines).fermi_energy <;> rfl
  have hex : BandAnalyzer.get_band_extrema
      { outcar_data := EnergyAnalyzer.parseOutcar olines,
        fermi_energy := (EnergyAnalyzer.parseOutcar olines).fermi_energy,
        eigenvalues := none }
      = { vbm := none, vbm_relative := none, cbm := none,
          cbm_relative := none, fermi_energy := none } := by
    unfold BandAnalyzer.get_band_extrema
    cases (EnergyAnalyzer.parseOutcar olines).fermi_energy <;> rfl
  refine ⟨rfl, hbg, hex, ?_⟩
  unfold BandAnalyzer.analyze_electronic_structure
  rw [hbg]

/-- Witness for C9: loading an empty OUTCAR. -/
theorem c9_band_witness :
    ({ outcar_data := EnergyAnalyzer.parseOutcar [],
       fermi_energy := none, eigenvalues := none } :
        BandAnalyzer.BandState).eigenvalues = none ∧
    BandAnalyzer.calculate_band_gap
      { outcar_data := EnergyAnalyzer.parseOutcar [],
        fermi_energy := none, eigenvalues := none } = none ∧
    BandAnalyzer.get_band_extrema
      { outcar_data := EnergyAnalyzer.parseOutcar [],
        fermi_energy := none, eigenvalues := none }
      = { vbm := none, vbm_relative := none, cbm := none,
          cbm_relative := none, fermi_energy := none } ∧
    (BandAnalyzer.analyze_electronic_structure
      { outcar_data := EnergyAnalyzer.parseOutcar [],
        fermi_energy := none, eigenvalues := none }).material_type
      = "unknown" :=
  c9_band_eigenvalues_never_populated [] _ rfl

/-! ## C10 -/

/-- C10 counterexample: a DOSCAR of six blank lines has at least 6
lines, and with no companion OUTCAR `load_data` does not succeed: the
header parse raises `IndexError` on `first_line[0]`, refuting the
claim as stated. -/
theorem c10_counterexample :
    (List.replicate 6 ([] : DoscarLine)).length = 6 ∧
    DOSAnalyzer.load_data ⟨some (List.replicate 6 []), none⟩
      = .error .indexError := by
  exact ⟨rfl, rfl⟩

/-- C10 (corrected): when the DOS log exists and parses successfully
and the companion energy log is absent, `DOSAnalyzer.load_data`
succeeds with `fermi_energy = None`, and `get_dos_at_fermi` and
`integrate_dos` then return `0.0` rather than raising, because the
fermi-energy prerequisite is absent. -/
theorem c10_fermi_absent (dlines : List DoscarLine) (dd : DosData)
    (h : DOSAnalyzer.parseDoscar dlines = .ok dd) :
    DOSAnalyzer.load_data ⟨some dlines, none⟩
      = .ok { dos_data := dd, fermi_energy := none } ∧
    DOSAnalyzer.get_dos_at_fermi dd none = .ok 0 ∧
    ∀ emin emax : ℚ, DOSAnalyzer.integrate_dos dd none emin emax = .ok 0 := by
  refine ⟨?_, rfl, fun emin emax => rfl⟩
  unfold DOSAnalyzer.load_data
  simp only [h]

/-- A well-formed single-point non-spin-polarized DOSCAR with no
companion OUTCAR. -/
def c10Lines : List DoscarLine :=
  [[some 1], [], [], [], [],
   [some 0, some 0, some 1, some 0],
   [some 0, some 5]]

/-- The record `c10Lines` parses to. -/
def c10Data : DosData :=
  { header := { natoms := 1, nedos := 1, efermi := 0, ispin := 1 },
    energies := [0], totalDos := .single [5],
    is_spin_polarized := false }

/-- Witness for C10 at the concrete directory `⟨some c10Lines, none⟩`. -/
theorem c10_fermi_absent_witness :
    DOSAnalyzer.load_data ⟨some c10Lines, none⟩
      = .ok { dos_data := c10Data, fermi_energy := none } ∧
    DOSAnalyzer.get_dos_at_fermi c10Data none = .ok 0 ∧
    DOSAnalyzer.integrate_dos c10Data none 1 2 = .ok 0 :=
  ⟨(c10_fermi_absent c10Lines c10Data rfl).1,
   (c10_fermi_absent c10Lines c10Data rfl).2.1,
   (c10_fermi_absent c10Lines c10Data rfl).2.2 1 2⟩

/-! ## C6: length invariants of the DOS body parse -/

/-- The parallel-length predicate for the total-DOS sequences: each
density sequence has length `n`. -/
def TotalDos.lensEq : TotalDos → Nat → Prop
  | .single t, n => t.length = n
  | .spin u d, n => u.length = n ∧ d.length = n

namespace DOSAnalyzer

/-- The body loop parses at most one energy per remaining iteration,
and exactly one per iteration when every remaining body line exists
and has at least two fields. -/
theorem parseDosBodyAux_length (lines : List DoscarLine) (ispin : Nat)
    (n : Nat) :
    ∀ (i : Nat) (es us ds ts es2 us2 ds2 ts2 : List ℚ),
      parseDosBodyAux lines ispin i n es us ds ts
        = .ok (es2, us2, ds2, ts2) →
      es2.length ≤ es.length + n ∧
      ((∀ j, j < n → ∃ parts, lines.get? (i + j) = some parts ∧
          2 ≤ parts.length) → es2.length = es.length + n) := by
  induction n with
  | zero =>
    intro i es us ds ts es2 us2 ds2 ts2 h
    simp only [parseDosBodyAux, Except.ok.injEq, Prod.mk.injEq] at h
    obtain ⟨h1, -, -, -⟩ := h
    subst h1
    exact ⟨Nat.le_refl _, fun _ => rfl⟩
  | succ n ih =>
    intro i es us ds ts es2 us2 ds2 ts2 h
    simp only [parseDosBodyAux] at h
    cases hg : lines.get? i with
    | none =>
      simp only [hg, Except.ok.injEq, Prod.mk.injEq] at h
      obtain ⟨h1, -, -, -⟩ := h
      subst h1
      refine ⟨by omega, fun hall => ?_⟩
      exfalso
      obtain ⟨parts, hp, -⟩ := hall 0 (Nat.succ_pos n)
      rw [Nat.add_zero, hg] at hp
      exact absurd hp (by simp)
    | some parts =>
      simp only [hg] at h
      by_cases hp : parts.length < 2
      · rw [if_pos hp] at h
        obtain ⟨hle, hexact⟩ := ih (i + 1) es us ds ts es2 us2 ds2 ts2 h
        refine ⟨by omega, fun hall => ?_⟩
        exfalso
        obtain ⟨parts2, hp2, hl2⟩ := hall 0 (Nat.succ_pos n)
        rw [Nat.add_zero, hg] at hp2
        injection hp2 with hp2
        subst hp2
        omega
      · rw [if_neg hp] at h
        cases hf0 : pyFloatAt parts 0 with
        | error e => simp [hf0] at h
        | ok en =>
          simp only [hf0] at h
          have step : ∀ us3 ds3 ts3,
              parseDosBodyAux lines ispin (i + 1) n
                (es ++ [en]) us3 ds3 ts3 = .ok (es2, us2, ds2, ts2) →
              es2.length ≤ es.length + (n + 1) ∧
              ((∀ j, j < n + 1 → ∃ parts0, lines.get? (i + j) = some parts0 ∧
                  2 ≤ parts0.length) → es2.length = es.length + (n + 1)) := by
            intro us3 ds3 ts3 h3
            obtain ⟨hle, hexact⟩ :=
              ih (i + 1) (es ++ [en]) us3 ds3 ts3 es2 us2 ds2 ts2 h3
            rw [List.length_append, List.length_singleton] at hle hexact
            refine ⟨by omega, fun hall => ?_⟩
            have := hexact fun j hj => by
              have hx := hall (j + 1) (by omega)
              rwa [show i + (j + 1) = (i + 1) + j by omega] at hx
            omega
          by_cases hsp : ispin = 2
          · rw [if_pos hsp] at h
            cases hf1 : pyFloatAt parts 1 with
            | error e => simp [hf1] at h
            | ok up =>
              simp only [hf1] at h
              cases hf2 : (if 2 < parts.length then pyFloatAt parts 2
                  else Except.ok 0) with
              | error e => simp [hf2] at h
              | ok down =>
                simp only [hf2] at h
                exact step _ _ _ h
          · rw [if_neg hsp] at h
            cases hf1 : pyFloatAt parts 1 with
            | error e => simp [hf1] at h
            | ok t0 =>
              simp only [hf1] at h
              exact step _ _ _ h

/-- In the spin-polarized loop the up and down sequences grow in
lockstep with the energies. -/
theorem parseDosBodyAux_updown_length (lines : List DoscarLine)
    (n : Nat) :
    ∀ (i : Nat) (es us ds ts es2 us2 ds2 ts2 : List ℚ),
      parseDosBodyAux lines 2 i n es us ds ts
        = .ok (es2, us2, ds2, ts2) →
      us2.length + es.length = es2.length + us.length ∧
      ds2.length + es.length = es2.length + ds.length := by
  induction n with
  | zero =>
    intro i es us ds ts es2 us2 ds2 ts2 h
    simp only [parseDosBodyAux, Except.ok.injEq, Prod.mk.injEq] at h
    obtain ⟨h1, h2, h3, -⟩ := h
    subst h1; subst h2; subst h3
    omega
  | succ n ih =>
    intro i es us ds ts es2 us2 ds2 ts2 h
    simp only [parseDosBodyAux] at h
    cases hg : lines.get? i with
    | none =>
      simp only [hg, Except.ok.injEq, Prod.mk.injEq] at h
      obtain ⟨h1, h2, h3, -⟩ := h
      subst h1; subst h2; subst h3
      omega
    | some parts =>
      simp only [hg] at h
      by_cases hp : parts.length < 2
      · rw [if_pos hp] at h
        exact ih (i + 1) es us ds ts es2 us2 ds2 ts2 h
      · rw [if_neg hp] at h
        cases hf0 : pyFloatAt parts 0 with
        | error e => simp [hf0] at h
        | ok en =>
          simp only [hf0, if_pos rfl] at h
          cases hf1 : pyFloatAt parts 1 with
          | error e => simp [hf1] at h
          | ok up =>
            simp only [hf1] at h
            cases hf2 : (if 2 < parts.length then pyFloatAt parts 2
                else Except.ok 0) with
            | error e => simp [hf2] at h
            | ok down =>
              simp only [hf2] at h
              have := ih (i + 1) (es ++ [en]) (us ++ [up]) (ds ++ [down])
                ts es2 us2 ds2 ts2 h
              simp only [List.length_append, List.length_singleton] at this
              omega

/-- In the non-spin-polarized loop the total sequence grows in
lockstep with the energies. -/
theorem parseDosBodyAux_total_length (lines : List DoscarLine)
    (ispin : Nat) (hsp : ispin ≠ 2) (n : Nat) :
    ∀ (i : Nat) (es us ds ts es2 us2 ds2 ts2 : List ℚ),
      parseDosBodyAux lines ispin i n es us ds ts
        = .ok (es2, us2, ds2, ts2) →
      ts2.length + es.length = es2.length + ts.length := by
  induction n with
  | zero =>
    intro i es us ds ts es2 us2 ds2 ts2 h
    simp only [parseDosBodyAux, Except.ok.injEq, Prod.mk.injEq] at h
    obtain ⟨h1, -, -, h4⟩ := h
    subst h1; subst h4
    omega
  | succ n ih =>
    intro i es us ds ts es2 us2 ds2 ts2 h
    simp only [parseDosBodyAux] at h
    cases hg : lines.get? i with
    | none =>
      simp only [hg, Except.ok.injEq, Prod.mk.injEq] at h
      obtain ⟨h1, -, -, h4⟩ := h
      subst h1; subst h4
      omega
    | some parts =>
      simp only [hg] at h
      by_cases hp : parts.length < 2
      · rw [if_pos hp] at h
        exact ih (i + 1) es us ds ts es2 us2 ds2 ts2 h
      · rw [if_neg hp] at h
        cases hf0 : pyFloatAt parts 0 with
        | error e => simp [hf0] at h
        | ok en =>
          simp only [hf0, if_neg hsp] at h
          cases hf1 : pyFloatAt parts 1 with
          | error e => simp [hf1] at h
          | ok t0 =>
            simp only [hf1] at h
            have := ih (i + 1) (es ++ [en]) us ds (ts ++ [t0])
              es2 us2 ds2 ts2 h
            simp only [List.length_append, List.length_singleton] at this
            omega

end DOSAnalyzer

/-- C6 (corrected): in every parsed DOS record the energy and density
sequences all have the same length, which is at most `nedos`; it
equals `nedos` when each of the `nedos` body-line positions exists in
the source and carries at least two fields.  (It can fall short of
`nedos` not only when the source ends early, as claimed, but also
when a body line with fewer than two fields is skipped.) -/
theorem c6_dos_lengths (lines : List DoscarLine) (d : DosData)
    (h : DOSAnalyzer.parseDoscar lines = .ok d) :
    d.energies.length ≤ d.header.nedos.toNat ∧
    TotalDos.lensEq d.totalDos d.energies.length ∧
    ((∀ j, j < d.header.nedos.toNat →
        ∃ parts, lines.get? (6 + j) = some parts ∧ 2 ≤ parts.length) →
      d.energies.length = d.header.nedos.toNat) := by
  unfold DOSAnalyzer.parseDoscar at h
  by_cases hlen : lines.length < 6
  · rw [if_pos hlen] at h
    exact absurd h (by simp)
  rw [if_neg hlen] at h
  cases hh : DOSAnalyzer.parseHeader lines with
  | error e => simp [hh] at h
  | ok header =>
    simp only [hh] at h
    cases hb : DOSAnalyzer.parseDosData lines header with
    | error e => simp [hb] at h
    | ok p =>
      simp only [hb] at h
      obtain ⟨es, td⟩ := p
      simp only [Except.ok.injEq] at h
      subst h
      unfold DOSAnalyzer.parseDosData at hb
      cases ha : DOSAnalyzer.parseDosBodyAux lines header.ispin 6
          header.nedos.toNat [] [] [] [] with
      | error e => simp [ha] at hb
      | ok q =>
        simp only [ha] at hb
        obtain ⟨es0, us0, ds0, ts0⟩ := q
        simp only [Except.ok.injEq, Prod.mk.injEq] at hb
        obtain ⟨hes, htd⟩ := hb
        subst hes
        obtain ⟨hle, hexact⟩ := DOSAnalyzer.parseDosBodyAux_length lines
          header.ispin header.nedos.toNat 6 [] [] [] [] es0 us0 ds0 ts0 ha
        simp only [List.length_nil, Nat.zero_add] at hle hexact
        refine ⟨hle, ?_, hexact⟩
        by_cases hsp : header.ispin = 2
        · rw [if_pos hsp] at htd
          subst htd
          rw [hsp] at ha
          have h2 := DOSAnalyzer.parseDosBodyAux_updown_length lines
            header.nedos.toNat 6 [] [] [] [] es0 us0 ds0 ts0 ha
          simp only [List.length_nil] at h2
          show us0.length = es0.length ∧ ds0.length = es0.length
          omega
        · rw [if_neg hsp] at htd
          subst htd
          have h2 := DOSAnalyzer.parseDosBodyAux_total_length lines
            header.ispin hsp header.nedos.toNat 6 [] [] [] [] es0 us0 ds0
            ts0 ha
          simp only [List.length_nil] at h2
          show ts0.length = es0.length
          omega

/-- A DOSCAR whose header declares `nedos = 2` and whose body has two
lines, the first of which is blank (fewer than 2 fields). -/
def c6BadLines : List DoscarLine :=
  [[some 1], [], [], [], [],
   [some 0, some 0, some 2, some 0],
   [], [some 0, some 1]]

/-- C6 counterexample: `c6BadLines` has 8 lines, so the source does
not end before supplying its `nedos = 2` body lines — yet the parsed
record has only 1 energy sample, because the blank body line is
skipped.  This refutes "shorter only when the source file ends before
supplying nedos body lines". -/
theorem c6_counterexample :
    c6BadLines.length = 8 ∧
    ((DOSAnalyzer.parseDoscar c6BadLines).map fun d =>
      (d.header.nedos, d.energies.length)) = .ok (2, 1) :=
  ⟨rfl, rfl⟩

/-- A well-formed DOSCAR with `nedos = 2` and two 2-field body lines. -/
def c6GoodLines : List DoscarLine :=
  [[some 2], [], [], [], [],
   [some 0, some 0, some 2, some 0],
   [some 0, some 1], [some 1, some 2]]

/-- The record `c6GoodLines` parses to. -/
def c6GoodData : DosData :=
  { header := { natoms := 2, nedos := 2, efermi := 0, ispin := 1 },
    energies := [0, 1], totalDos := .single [1, 2],
    is_spin_polarized := false }

/-- Witness for C6 at `c6GoodLines`: all sequences have length
`nedos = 2`. -/
theorem c6_dos_lengths_witness :
    c6GoodData.energies.length ≤ c6GoodData.header.nedos.toNat ∧
    TotalDos.lensEq c6GoodData.totalDos c6GoodData.energies.length ∧
    c6GoodData.energies.length = c6GoodData.header.nedos.toNat :=
  ⟨(c6_dos_lengths c6GoodLines c6GoodData rfl).1,
   (c6_dos_lengths c6GoodLines c6GoodData rfl).2.1,
   (c6_dos_lengths c6GoodLines c6GoodData rfl).2.2 (fun j hj => by
     have hj2 : j < 2 := hj
     interval_cases j
     · exact ⟨[some 0, some 1], rfl, by decide⟩
     · exact ⟨[some 1, some 2], rfl, by decide⟩)⟩
